import Mathlib

/-!
Verification development for the doc-drift-guard symbol resolution engine.

Shallow embedding of the core modules:
  src/doc_drift_guard/analyzer/resolver.py  (find_symbol_in_file,
    find_symbol_in_directory, resolve_import, extract_names_from_target)
  src/doc_drift_guard/analyzer/imports.py   (extract_symbols)
  src/doc_drift_guard/cli.py                (package-prefix filter)

Modelling conventions:
  - A filesystem path is an absolute POSIX path, written as the list of its
    segments (so the list [a, b] stands for the path /a/b and [] stands
    for the filesystem root /).
  - The filesystem is a finite association list from canonical (resolved)
    paths to entries; it is symlink-free, so resolving a path is the
    lexical normalization that drops empty and dot segments and lets a
    dot-dot segment consume its parent.  Under that assumption the
    pathlib resolve call of the source is exactly this normalization and
    never raises.
  - Fallible operations of the source (reading a file, parsing it,
    taking with_suffix of a path with an empty name) are modelled as
    explicit error values or Option results; the except-handlers of the
    source become the corresponding match arms.  Exception freedom of
    the source therefore appears here as totality: every embedded
    function returns a Resolution value.
  - Python string operations used by the source (split, startswith,
    endswith) are re-implemented by structural recursion on character
    lists so that every definition evaluates inside the kernel.
-/

set_option maxRecDepth 8192

namespace DocDriftGuard

/-! ## Python string primitives -/

/-- Model of the Python str.split method with a one-character separator:
splitting the empty string yields a single empty field, and consecutive
separators yield empty fields. -/
def splitCharAux (sep : Char) : List Char → List Char → List String
  | [], acc => [String.mk acc.reverse]
  | c :: cs, acc =>
      if c = sep then String.mk acc.reverse :: splitCharAux sep cs []
      else splitCharAux sep cs (c :: acc)

/-- Split a string on a single-character separator, Python-style. -/
def pySplit (sep : Char) (s : String) : List String :=
  splitCharAux sep s.toList []

/-- Model of the Python str.startswith method. -/
def strStartsWith (pre s : String) : Bool :=
  pre.toList.isPrefixOf s.toList

/-- Model of the Python str.endswith method. -/
def strEndsWith (suffix s : String) : Bool :=
  suffix.toList.reverse.isPrefixOf s.toList.reverse

/-! ## Path model (POSIX pathlib semantics, symlink-free) -/

/-- An absolute POSIX path as its list of segments; [] is the root. -/
abbrev Path := List String

/-- Lexical normalization performed by pathlib Path.resolve on a
symlink-free filesystem: empty and single-dot segments vanish, a
dot-dot segment removes the preceding segment (at the root it stays at
the root), every other segment is kept. -/
def resolvePath (p : Path) : Path :=
  p.foldl (fun acc seg =>
    if seg = "" ∨ seg = "." then acc
    else if seg = ".." then acc.dropLast
    else acc ++ [seg]) []

/-- Model of pathlib parent: the root is its own parent. -/
def parentDir (p : Path) : Path := p.dropLast

/-- Model of pathlib is_relative_to: a purely lexical segment-prefix
test (the source only ever applies it to already-resolved paths). -/
def isRelativeTo (p q : Path) : Bool := q.isPrefixOf p

/-- Model of joining one raw string argument onto a path, as pathlib
joinpath does: the argument is split on slashes, empty and single-dot
pieces are dropped, and an argument that begins with a slash restarts
from the filesystem root, discarding everything joined so far. -/
def joinArg (p : Path) (s : String) : Path :=
  let segs := (pySplit '/' s).filter (fun t => t ≠ "" && t ≠ ".")
  if strStartsWith "/" s then segs else p ++ segs

/-- Model of pathlib joinpath over a list of raw string arguments. -/
def joinPath (p : Path) (parts : List String) : Path :=
  parts.foldl joinArg p

/-- Replace the suffix of a path name by .py, following pathlib
with_suffix: an existing suffix (a dot that is neither the first nor
the last character of the name) is stripped first, otherwise .py is
appended. -/
def replaceSuffixWithPy (name : String) : String :=
  let cs := name.toList
  match cs.reverse.findIdx? (· = '.') with
  | none => name ++ ".py"
  | some j =>
      let i := cs.length - 1 - j
      if 0 < i ∧ i < cs.length - 1 then String.mk (cs.take i) ++ ".py"
      else name ++ ".py"

/-- Model of pathlib with_suffix applied with suffix .py: raises (here:
none) when the path has an empty name, as for the filesystem root. -/
def withSuffixPy (p : Path) : Option Path :=
  match p.getLast? with
  | none => none
  | some nm => if nm = "" then none else some (p.dropLast ++ [replaceSuffixWithPy nm])

/-! ## Python AST model (the node kinds the resolver inspects) -/

/-- Assignment target, mirroring the ast node kinds handled by
extract_names_from_target: Name, Tuple, List, Starred, anything else. -/
inductive Target where
  | name (id : String)
  | tup (elts : List Target)
  | listTarget (elts : List Target)
  | starred (v : Target)
  | other

/-- One name of an import statement: ast.alias with its optional
as-name. -/
structure ImportAlias where
  name : String
  asname : Option String := none

/-- Statement node kinds, mirroring the ast node kinds the resolver
distinguishes.  Function, async-function and class definitions carry
their bodies (which the search never enters); the catch-all
constructor stands for every other statement kind. -/
inductive Stmt where
  | functionDef (name : String) (body : List Stmt)
  | asyncFunctionDef (name : String) (body : List Stmt)
  | classDef (name : String) (body : List Stmt)
  | assign (targets : List Target)
  | annAssign (target : Target)
  | importFrom (module : Option String) (names : List ImportAlias) (level : Nat)
  | importStmt (names : List ImportAlias)
  | ifStmt (body orelse : List Stmt)
  | tryStmt (body : List Stmt) (handlers : List (List Stmt)) (orelse finalbody : List Stmt)
  | withStmt (body : List Stmt)
  | asyncWithStmt (body : List Stmt)
  | forStmt (body orelse : List Stmt)
  | asyncForStmt (body orelse : List Stmt)
  | whileStmt (body orelse : List Stmt)
  | otherStmt

mutual

/-- Embedding of the source helper extract_names_from_target:
recursively collect the variable names of an assignment target,
flattening tuple, list and starred unpacking patterns. -/
def extract_names_from_target : Target → List String
  | Target.name id => [id]
  | Target.tup elts => extract_names_from_targets elts
  | Target.listTarget elts => extract_names_from_targets elts
  | Target.starred v => extract_names_from_target v
  | Target.other => []

/-- Name collection over a list of targets, concatenated in order. -/
def extract_names_from_targets : List Target → List String
  | [] => []
  | t :: ts => extract_names_from_target t ++ extract_names_from_targets ts

end

/-! ## Filesystem model -/

/-- What reading and parsing a file yields: a parsed module body, or
one of the error classes the source catches (UnicodeDecodeError,
SyntaxError, OSError). -/
inductive FileData where
  | module (body : List Stmt)
  | decodeError
  | syntaxError
  | osError

/-- A filesystem entry: a regular file with its read/parse outcome, or
a directory. -/
inductive Entry where
  | file (d : FileData)
  | dir

/-- A finite, symlink-free filesystem: an association list from
canonical (resolved) absolute paths to entries, in a fixed traversal
order. -/
structure FS where
  entries : List (Path × Entry)

/-- Look up the entry at a path; the path is resolved first, as the
real filesystem does for any access. -/
def FS.lookup (fs : FS) (p : Path) : Option Entry :=
  (fs.entries.find? (fun e => e.1 = resolvePath p)).map (fun e => e.2)

/-- Model of pathlib Path.exists. -/
def FS.pathExists (fs : FS) (p : Path) : Bool :=
  (fs.lookup p).isSome

/-! ## Resolution result -/

/-- Embedding of the Resolution dataclass.  The source field named
after the existential keyword is rendered as found; the source stores
the location as a string, here kept as the path value itself. -/
structure Resolution where
  symbol : String
  found : Bool
  location : Option Path := none
  confidence : Rat := 1
deriving DecidableEq

/-- The not-found Resolution value the source builds at every failure
site: exists False, no location, confidence zero. -/
def notFoundRes (symbol : String) : Resolution :=
  { symbol := symbol, found := false, location := none, confidence := 0 }

/-- The found Resolution value: exists True, the searched file as
location, confidence one. -/
def foundRes (symbol : String) (p : Path) : Resolution :=
  { symbol := symbol, found := true, location := some p, confidence := 1 }

/-! ## Scoped symbol search (find_symbol_in_file) -/

/-- The name an import alias binds: the as-name when present, else
the name that was imported. -/
def boundAliasName (a : ImportAlias) : String :=
  a.asname.getD a.name

/-- One statement of the per-statement test that both search passes of
find_symbol_in_file perform: function, async-function and class
definitions by name; assignment targets (recursively flattened);
annotated assignment to a plain name; from-import and import
re-exports by bound name.  Every other statement kind never matches,
and bodies of matched constructs are not entered. -/
def stmtDefines (symbol : String) : Stmt → Bool
  | Stmt.functionDef name _ => name == symbol
  | Stmt.asyncFunctionDef name _ => name == symbol
  | Stmt.classDef name _ => name == symbol
  | Stmt.assign targets =>
      targets.any (fun t => (extract_names_from_target t).contains symbol)
  | Stmt.annAssign target =>
      match target with
      | Target.name id => id == symbol
      | _ => false
  | Stmt.importFrom _ names _ => names.any (fun a => boundAliasName a == symbol)
  | Stmt.importStmt names => names.any (fun a => boundAliasName a == symbol)
  | _ => false

/-- Embedding of the inner helper check_nested_body: scan one nested
statement list with the per-statement test, without recursing
further. -/
def check_nested_body (symbol : String) (body : List Stmt) : Bool :=
  body.any (stmtDefines symbol)

/-- The second pass of find_symbol_in_file: for each top-level
statement, scan one level inside the handled block kinds - both
branches of a conditional, the body, else, finally and every handler
of a try statement, the body of a with or async-with, and the body and
else of a for or async-for.  While loops and all other statement kinds
are not descended into. -/
def stmtNestedDefines (symbol : String) : Stmt → Bool
  | Stmt.ifStmt body orelse =>
      check_nested_body symbol body || check_nested_body symbol orelse
  | Stmt.tryStmt body handlers orelse finalbody =>
      check_nested_body symbol body || check_nested_body symbol orelse ||
      check_nested_body symbol finalbody || handlers.any (check_nested_body symbol)
  | Stmt.withStmt body => check_nested_body symbol body
  | Stmt.asyncWithStmt body => check_nested_body symbol body
  | Stmt.forStmt body orelse =>
      check_nested_body symbol body || check_nested_body symbol orelse
  | Stmt.asyncForStmt body orelse =>
      check_nested_body symbol body || check_nested_body symbol orelse
  | _ => false

/-- Embedding of find_symbol_in_file.  Reading a missing path, a
directory, or a file whose read or parse fails (the caught
UnicodeDecodeError, SyntaxError, OSError cases) yields the not-found
Resolution.  On a parsed module the top-level pass runs first, then
the bounded one-level pass over the handled block kinds; both report
the searched file as location. -/
def find_symbol_in_file (symbol : String) (file_path : Path) (fs : FS) : Resolution :=
  match fs.lookup file_path with
  | some (Entry.file (FileData.module body)) =>
      if body.any (stmtDefines symbol) then foundRes symbol file_path
      else if body.any (stmtNestedDefines symbol) then foundRes symbol file_path
      else notFoundRes symbol
  | _ => notFoundRes symbol

/-- The files the rglob call of find_symbol_in_directory visits: every
regular file under the directory whose last segment ends in .py, in
the fixed traversal order of the filesystem.  Symbolic links do not
exist in this model, so the symlink skip of the source is vacuous. -/
def pyFilesUnder (fs : FS) (dir : Path) : List Path :=
  (fs.entries.filter (fun e =>
      (match e.2 with | Entry.file _ => true | Entry.dir => false) &&
      isRelativeTo e.1 (resolvePath dir) &&
      (match e.1.getLast? with | some n => strEndsWith ".py" n | none => false))).map
    (fun e => e.1)

/-- Embedding of find_symbol_in_directory: not-found when the path is
not an existing directory, else the first per-file search that
reports found, else not-found. -/
def find_symbol_in_directory (symbol : String) (src_dir : Path) (fs : FS) : Resolution :=
  match fs.lookup src_dir with
  | some Entry.dir =>
      match (pyFilesUnder fs src_dir).findSome? (fun p =>
          let r := find_symbol_in_file symbol p fs
          if r.found then some r else none) with
      | some r => r
      | none => notFoundRes symbol
  | _ => notFoundRes symbol

/-! ## Module path resolution (resolve_import) -/

/-- The ascension loop of the relative-import branch: take the parent
a given number of times, and after every single step require the new
directory to still be lexically inside the resolved source root (the
safety check of the source); none when a step violates that. -/
def ascend (src_dir_resolved : Path) : Path → Nat → Option Path
  | base, 0 => some base
  | base, Nat.succ n =>
      let new_path := parentDir base
      if isRelativeTo new_path src_dir_resolved then ascend src_dir_resolved new_path n
      else none

/-- Embedding of resolve_import.  The body mirrors the source branch
for branch: the relative branch (level positive) ascends, then either
joins the dotted module onto the base and searches the module file or
package init file after a bare existence check, or for an empty module
searches the base directory; the absolute branch fails on an empty
module, checks bare existence only when symbol equals module, and
otherwise searches the specific module file or package init file, each
candidate accepted only when its resolution stays inside the resolved
root.  A with_suffix failure is caught: in the plain-import branch the
shared handler also skips the package attempt, in the final branch the
package attempt still runs (two separate handlers in the source). -/
def resolve_import (module symbol : String) (src_dir : Path) (level : Nat) (fs : FS) : Resolution :=
  let src_dir_resolved := resolvePath src_dir
  if level > 0 then
    match ascend src_dir_resolved src_dir_resolved (level - 1) with
    | none => notFoundRes symbol
    | some base_path =>
      if module ≠ "" then
        let module_parts := pySplit '.' module
        match withSuffixPy (joinPath base_path module_parts) with
        | none => notFoundRes symbol
        | some module_path =>
          if fs.pathExists (resolvePath module_path) then
            find_symbol_in_file symbol module_path fs
          else
            let package_path := joinArg (joinPath base_path module_parts) "__init__.py"
            if fs.pathExists (resolvePath package_path) then
              find_symbol_in_file symbol package_path fs
            else notFoundRes symbol
      else
        find_symbol_in_directory symbol base_path fs
  else
    if module = "" then notFoundRes symbol
    else
      let module_parts := pySplit '.' module
      if symbol == module then
        match withSuffixPy (joinPath src_dir module_parts) with
        | none => notFoundRes symbol
        | some module_path =>
          if isRelativeTo (resolvePath module_path) src_dir_resolved && fs.pathExists module_path then
            foundRes symbol module_path
          else
            let package_path := joinArg (joinPath src_dir module_parts) "__init__.py"
            if isRelativeTo (resolvePath package_path) src_dir_resolved && fs.pathExists package_path then
              foundRes symbol package_path
            else notFoundRes symbol
      else
        let package_attempt : Resolution :=
          let package_path := joinArg (joinPath src_dir module_parts) "__init__.py"
          if isRelativeTo (resolvePath package_path) src_dir_resolved && fs.pathExists package_path then
            find_symbol_in_file symbol package_path fs
          else notFoundRes symbol
        match withSuffixPy (joinPath src_dir module_parts) with
        | none => package_attempt
        | some module_path =>
          if isRelativeTo (resolvePath module_path) src_dir_resolved && fs.pathExists module_path then
            find_symbol_in_file symbol module_path fs
          else package_attempt

/-! ## Symbol extraction (imports.py) and the package filter (cli.py) -/

/-- Embedding of the Import dataclass of the statement parser.  The
alias dictionary, which maps an as-name to the original name with
insertion order, is kept as an ordered association list. -/
structure Import where
  module : String
  names : List String
  aliases : List (String × String)
  level : Nat := 0

/-- Embedding of the ImportedSymbol dataclass.  The source field named
alias is rendered as aliasName, since alias is a reserved word here. -/
structure ImportedSymbol where
  symbol : String
  module : String
  aliasName : Option String := none
  level : Nat := 0
deriving DecidableEq

/-- The alias attached to a bare module import: the first key of the
alias dictionary when it is non-empty. -/
def plainImportAlias (aliases : List (String × String)) : Option String :=
  aliases.head?.map (fun p => p.1)

/-- The alias lookup of the extraction loop: the first dictionary item
whose original name equals the given name, if any. -/
def aliasFor (aliases : List (String × String)) (name : String) : Option String :=
  (aliases.find? (fun p => p.2 == name)).map (fun p => p.1)

/-- Embedding of extract_symbols: one accumulating pass over the
statements; an empty name list contributes a single reference carrying
the full module path as its checked symbol; otherwise every name
except the star wildcard contributes one reference carrying the
original name, with its alias attached when one maps to it. -/
def extract_symbols (imports : List Import) : List ImportedSymbol :=
  imports.foldl (fun symbols imp =>
    if imp.names.isEmpty then
      symbols ++ [{ symbol := imp.module, module := imp.module,
                    aliasName := plainImportAlias imp.aliases, level := imp.level }]
    else
      imp.names.foldl (fun syms name =>
        if name == "*" then syms
        else syms ++ [{ symbol := name, module := imp.module,
                        aliasName := aliasFor imp.aliases name, level := imp.level }]) symbols) []

/-- The per-reference keep condition of the package filter in the
check command: relative references and empty-module references always
pass; otherwise the module must equal a configured prefix or extend it
by a dot. -/
def keepSymbol (packages : List String) (s : ImportedSymbol) : Bool :=
  decide (s.level > 0) || s.module == "" ||
    packages.any (fun p => s.module == p || strStartsWith (p ++ ".") s.module)

/-- The package filter of the check command: applied only when at
least one package prefix is configured. -/
def filterSymbols (packages : List String) (symbols : List ImportedSymbol) : List ImportedSymbol :=
  if packages.isEmpty then symbols else symbols.filter (keepSymbol packages)

/-! ## Declarative companions, stated from the specification wording -/

/-- Spec-side: the names one statement binds at its own level, for the
binding forms the specification enumerates (definitions by name,
flattened assignment targets, annotated assignment to a plain name,
re-export imports by bound name). -/
def stmtBoundNames : Stmt → List String
  | Stmt.functionDef n _ => [n]
  | Stmt.asyncFunctionDef n _ => [n]
  | Stmt.classDef n _ => [n]
  | Stmt.assign targets => extract_names_from_targets targets
  | Stmt.annAssign target =>
      match target with
      | Target.name id => [id]
      | _ => []
  | Stmt.importFrom _ names _ => names.map boundAliasName
  | Stmt.importStmt names => names.map boundAliasName
  | _ => []

/-- Spec-side: the statement lists one level inside the bounded set of
control constructs the search descends into. -/
def nestedBlocks : Stmt → List (List Stmt)
  | Stmt.ifStmt body orelse => [body, orelse]
  | Stmt.tryStmt body handlers orelse finalbody => [body, orelse, finalbody] ++ handlers
  | Stmt.withStmt body => [body]
  | Stmt.asyncWithStmt body => [body]
  | Stmt.forStmt body orelse => [body, orelse]
  | Stmt.asyncForStmt body orelse => [body, orelse]
  | _ => []

/-- Spec-side: the top-level name table of a module body. -/
def topLevelBoundNames (body : List Stmt) : List String :=
  body.flatMap stmtBoundNames

/-- Spec-side: the names bound exactly one level inside the bounded
control constructs of a module body. -/
def oneLevelBoundNames (body : List Stmt) : List String :=
  body.flatMap (fun s => (nestedBlocks s).flatMap topLevelBoundNames)

/-- Spec-side: every name the bounded-scope model treats as visible at
module level - the top-level table plus the one bounded shadow
level. -/
def moduleVisibleNames (body : List Stmt) : List String :=
  topLevelBoundNames body ++ oneLevelBoundNames body

/-- Spec-side: the per-statement extraction contract - a bare
module-import contributes one reference named by the full dotted path;
otherwise every non-wildcard name contributes one reference named by
the original imported name, with its alias attached. -/
def extractOneSpec (imp : Import) : List ImportedSymbol :=
  if imp.names = [] then
    [{ symbol := imp.module, module := imp.module,
       aliasName := plainImportAlias imp.aliases, level := imp.level }]
  else
    (imp.names.filter (fun n => n ≠ "*")).map
      (fun n => { symbol := n, module := imp.module,
                  aliasName := aliasFor imp.aliases n, level := imp.level })

/-- Spec-side: the bare existence condition of the plain-import
branch - the module file, or the package init file, joined under the
source directory, resolves inside the root and exists.  No file
content occurs in this condition.  When forming the module file name
fails (the caught with_suffix error), the shared handler of the source
also skips the package attempt, so the condition is false. -/
def moduleOrPackageExists (module : String) (src_dir : Path) (fs : FS) : Bool :=
  match withSuffixPy (joinPath src_dir (pySplit '.' module)) with
  | none => false
  | some mp =>
      (isRelativeTo (resolvePath mp) (resolvePath src_dir) && fs.pathExists mp) ||
      (isRelativeTo
          (resolvePath (joinArg (joinPath src_dir (pySplit '.' module)) "__init__.py"))
          (resolvePath src_dir) &&
        fs.pathExists (joinArg (joinPath src_dir (pySplit '.' module)) "__init__.py"))

/-- Replace every file content of a filesystem while keeping the set
of paths and the file-or-directory kind of every entry; used to state
that a branch never reads file contents. -/
def FS.mapData (fs : FS) (g : FileData → FileData) : FS :=
  ⟨fs.entries.map (fun e =>
    (e.1, match e.2 with | Entry.file d => Entry.file (g d) | Entry.dir => Entry.dir))⟩

/-! ## Concrete filesystems used by witnesses and counterexamples -/

/-- A sandbox root at /sandbox and an unrelated file /secret.py that
defines the name token. -/
def escapeFS : FS :=
  ⟨[(["secret.py"], Entry.file (FileData.module [Stmt.assign [Target.name "token"]])),
    (["sandbox"], Entry.dir)]⟩

/-- A root /sandbox/pkg whose parent directory /sandbox holds utils.py
defining target_func - the one-level-above layout of the
specification. -/
def ascendFS : FS :=
  ⟨[(["sandbox", "utils.py"], Entry.file (FileData.module [Stmt.functionDef "target_func" []])),
    (["sandbox", "pkg"], Entry.dir),
    (["sandbox"], Entry.dir)]⟩

/-- Two sibling units: module_a.py defines target, module_b.py does
not. -/
def twoModuleFS : FS :=
  ⟨[(["root", "module_a.py"], Entry.file (FileData.module [Stmt.functionDef "target" []])),
    (["root", "module_b.py"], Entry.file (FileData.module [])),
    (["root"], Entry.dir)]⟩

/-- A unit whose only binding of x sits one level inside a top-level
while loop. -/
def whileFS : FS :=
  ⟨[(["root", "w.py"], Entry.file (FileData.module
      [Stmt.whileStmt [Stmt.assign [Target.name "x"]] []]))]⟩

/-- A compatibility-shim unit: a try block re-exporting FastClass with
a handler re-exporting it under the same bound name. -/
def tryFS : FS :=
  ⟨[(["root", "t.py"], Entry.file (FileData.module
      [Stmt.tryStmt [Stmt.importFrom (some "fast_lib") [⟨"FastClass", none⟩] 0]
        [[Stmt.importFrom (some "slow_lib") [⟨"SlowClass", some "FastClass"⟩] 0]] [] []]))]⟩

/-- The scope scenario of the specification: VISIBLE at top level,
LOCAL only inside a function body. -/
def scopeFS : FS :=
  ⟨[(["root", "scope.py"], Entry.file (FileData.module
      [Stmt.assign [Target.name "VISIBLE"],
       Stmt.functionDef "f" [Stmt.assign [Target.name "LOCAL"]]]))]⟩

/-- A filesystem holding one undecodable file. -/
def errFS : FS :=
  ⟨[(["root", "bad.py"], Entry.file FileData.decodeError),
    (["root"], Entry.dir)]⟩

/-- A module file foo.py whose body binds nothing at all. -/
def fooFS : FS :=
  ⟨[(["root", "foo.py"], Entry.file (FileData.module [])),
    (["root"], Entry.dir)]⟩

/-- A package pkg with an empty init file. -/
def pkgFS : FS :=
  ⟨[(["root", "pkg", "__init__.py"], Entry.file (FileData.module [])),
    (["root", "pkg"], Entry.dir),
    (["root"], Entry.dir)]⟩

/-! ## Bridging lemmas: executable search versus declarative name tables -/

/-- Membership in the concatenated target-name collection is
membership in the names of one of the targets. -/
theorem mem_extract_names_from_targets (symbol : String) (ts : List Target) :
    symbol ∈ extract_names_from_targets ts ↔
      ∃ t ∈ ts, symbol ∈ extract_names_from_target t := by
  induction ts with
  | nil => simp [extract_names_from_targets]
  | cons t ts ih => simp [extract_names_from_targets, ih]

/-- The per-statement test of the search succeeds exactly on the names
the statement binds at its own level. -/
theorem stmtDefines_iff (symbol : String) (s : Stmt) :
    stmtDefines symbol s = true ↔ symbol ∈ stmtBoundNames s := by
  cases s with
  | functionDef n body =>
      show (n == symbol) = true ↔ symbol ∈ [n]
      rw [beq_iff_eq, List.mem_singleton]
      exact eq_comm
  | asyncFunctionDef n body =>
      show (n == symbol) = true ↔ symbol ∈ [n]
      rw [beq_iff_eq, List.mem_singleton]
      exact eq_comm
  | classDef n body =>
      show (n == symbol) = true ↔ symbol ∈ [n]
      rw [beq_iff_eq, List.mem_singleton]
      exact eq_comm
  | assign targets =>
      show targets.any (fun t => (extract_names_from_target t).contains symbol) = true ↔
        symbol ∈ extract_names_from_targets targets
      simp [List.any_eq_true, List.contains, List.elem_iff, mem_extract_names_from_targets]
  | annAssign target =>
      cases target with
      | name id =>
          show (id == symbol) = true ↔ symbol ∈ [id]
          rw [beq_iff_eq, List.mem_singleton]
          exact eq_comm
      | tup elts =>
          show false = true ↔ symbol ∈ ([] : List String)
          simp
      | listTarget elts =>
          show false = true ↔ symbol ∈ ([] : List String)
          simp
      | starred v =>
          show false = true ↔ symbol ∈ ([] : List String)
          simp
      | other =>
          show false = true ↔ symbol ∈ ([] : List String)
          simp
  | importFrom m names lvl =>
      show names.any (fun a => boundAliasName a == symbol) = true ↔
        symbol ∈ names.map boundAliasName
      simp [List.any_eq_true, List.mem_map]
  | importStmt names =>
      show names.any (fun a => boundAliasName a == symbol) = true ↔
        symbol ∈ names.map boundAliasName
      simp [List.any_eq_true, List.mem_map]
  | ifStmt b o =>
      show false = true ↔ symbol ∈ ([] : List String)
      simp
  | tryStmt b h o f =>
      show false = true ↔ symbol ∈ ([] : List String)
      simp
  | withStmt b =>
      show false = true ↔ symbol ∈ ([] : List String)
      simp
  | asyncWithStmt b =>
      show false = true ↔ symbol ∈ ([] : List String)
      simp
  | forStmt b o =>
      show false = true ↔ symbol ∈ ([] : List String)
      simp
  | asyncForStmt b o =>
      show false = true ↔ symbol ∈ ([] : List String)
      simp
  | whileStmt b o =>
      show false = true ↔ symbol ∈ ([] : List String)
      simp
  | otherStmt =>
      show false = true ↔ symbol ∈ ([] : List String)
      simp

/-- Existential form of the top-level pass versus the top-level name
table. -/
theorem exists_stmtDefines_iff (symbol : String) (body : List Stmt) :
    (∃ s ∈ body, stmtDefines symbol s = true) ↔ symbol ∈ topLevelBoundNames body := by
  simp [topLevelBoundNames, List.mem_flatMap, stmtDefines_iff]

/-- The top-level pass succeeds exactly on the top-level name table. -/
theorem any_stmtDefines_iff (symbol : String) (body : List Stmt) :
    body.any (stmtDefines symbol) = true ↔ symbol ∈ topLevelBoundNames body := by
  rw [List.any_eq_true]
  exact exists_stmtDefines_iff symbol body

/-- The one-level pass on a single statement succeeds exactly on the
names bound one level inside its handled blocks. -/
theorem stmtNestedDefines_iff (symbol : String) (s : Stmt) :
    stmtNestedDefines symbol s = true ↔
      symbol ∈ (nestedBlocks s).flatMap topLevelBoundNames := by
  cases s with
  | ifStmt b o =>
      show (check_nested_body symbol b || check_nested_body symbol o) = true ↔
        symbol ∈ ([b, o] : List (List Stmt)).flatMap topLevelBoundNames
      simp [check_nested_body, List.any_eq_true, exists_stmtDefines_iff, List.mem_flatMap]
  | tryStmt b h o f =>
      show (check_nested_body symbol b || check_nested_body symbol o ||
            check_nested_body symbol f || h.any (check_nested_body symbol)) = true ↔
        symbol ∈ (([b, o, f] ++ h : List (List Stmt)).flatMap topLevelBoundNames)
      simp [check_nested_body, List.any_eq_true, exists_stmtDefines_iff, List.mem_flatMap,
        or_assoc]
  | withStmt b =>
      show check_nested_body symbol b = true ↔
        symbol ∈ ([b] : List (List Stmt)).flatMap topLevelBoundNames
      simp [check_nested_body, List.any_eq_true, exists_stmtDefines_iff, List.mem_flatMap]
  | asyncWithStmt b =>
      show check_nested_body symbol b = true ↔
        symbol ∈ ([b] : List (List Stmt)).flatMap topLevelBoundNames
      simp [check_nested_body, List.any_eq_true, exists_stmtDefines_iff, List.mem_flatMap]
  | forStmt b o =>
      show (check_nested_body symbol b || check_nested_body symbol o) = true ↔
        symbol ∈ ([b, o] : List (List Stmt)).flatMap topLevelBoundNames
      simp [check_nested_body, List.any_eq_true, exists_stmtDefines_iff, List.mem_flatMap]
  | asyncForStmt b o =>
      show (check_nested_body symbol b || check_nested_body symbol o) = true ↔
        symbol ∈ ([b, o] : List (List Stmt)).flatMap topLevelBoundNames
      simp [check_nested_body, List.any_eq_true, exists_stmtDefines_iff, List.mem_flatMap]
  | functionDef n body =>
      show false = true ↔ symbol ∈ ([] : List (List Stmt)).flatMap topLevelBoundNames
      simp
  | asyncFunctionDef n body =>
      show false = true ↔ symbol ∈ ([] : List (List Stmt)).flatMap topLevelBoundNames
      simp
  | classDef n body =>
      show false = true ↔ symbol ∈ ([] : List (List Stmt)).flatMap topLevelBoundNames
      simp
  | assign targets =>
      show false = true ↔ symbol ∈ ([] : List (List Stmt)).flatMap topLevelBoundNames
      simp
  | annAssign target =>
      show false = true ↔ symbol ∈ ([] : List (List Stmt)).flatMap topLevelBoundNames
      simp
  | importFrom m names lvl =>
      show false = true ↔ symbol ∈ ([] : List (List Stmt)).flatMap topLevelBoundNames
      simp
  | importStmt names =>
      show false = true ↔ symbol ∈ ([] : List (List Stmt)).flatMap topLevelBoundNames
      simp
  | whileStmt b o =>
      show false = true ↔ symbol ∈ ([] : List (List Stmt)).flatMap topLevelBoundNames
      simp
  | otherStmt =>
      show false = true ↔ symbol ∈ ([] : List (List Stmt)).flatMap topLevelBoundNames
      simp

/-- The one-level pass over a body succeeds exactly on the one-level
name table. -/
theorem any_stmtNestedDefines_iff (symbol : String) (body : List Stmt) :
    body.any (stmtNestedDefines symbol) = true ↔ symbol ∈ oneLevelBoundNames body := by
  simp [oneLevelBoundNames, List.any_eq_true, List.mem_flatMap, stmtNestedDefines_iff]

/-- On a successfully parsed unit, the search reports found exactly on
the module-visible name table (top level plus one bounded level). -/
theorem find_symbol_in_file_found_iff (symbol : String) (p : Path) (fs : FS)
    (body : List Stmt) (h : fs.lookup p = some (Entry.file (FileData.module body))) :
    (find_symbol_in_file symbol p fs).found = true ↔ symbol ∈ moduleVisibleNames body := by
  unfold find_symbol_in_file
  rw [h]
  by_cases h1 : body.any (stmtDefines symbol) = true
  · simp [h1, foundRes, moduleVisibleNames, (any_stmtDefines_iff symbol body).mp h1]
  · by_cases h2 : body.any (stmtNestedDefines symbol) = true
    · simp [h1, h2, foundRes, moduleVisibleNames,
        (any_stmtNestedDefines_iff symbol body).mp h2]
    · simp only [h1, h2, Bool.false_eq_true, if_false]
      simp [notFoundRes, moduleVisibleNames]
      exact ⟨fun hm => h1 ((any_stmtDefines_iff symbol body).mpr hm),
             fun hm => h2 ((any_stmtNestedDefines_iff symbol body).mpr hm)⟩

/-! ## Shape lemmas: every result is one of the two canonical values -/

/-- The per-file search returns either the canonical not-found value
or the found value located at the searched file. -/
theorem find_symbol_in_file_shape (symbol : String) (p : Path) (fs : FS) :
    find_symbol_in_file symbol p fs = notFoundRes symbol ∨
    find_symbol_in_file symbol p fs = foundRes symbol p := by
  unfold find_symbol_in_file
  split
  · split
    · exact Or.inr rfl
    · split
      · exact Or.inr rfl
      · exact Or.inl rfl
  · exact Or.inl rfl

/-- The directory search returns either the canonical not-found value
or a found value located at one of the visited files. -/
theorem find_symbol_in_directory_shape (symbol : String) (d : Path) (fs : FS) :
    find_symbol_in_directory symbol d fs = notFoundRes symbol ∨
    ∃ p, find_symbol_in_directory symbol d fs = foundRes symbol p := by
  unfold find_symbol_in_directory
  split
  · split
    · rename_i r hr
      obtain ⟨p, _, hp⟩ := List.exists_of_findSome?_eq_some hr
      rcases find_symbol_in_file_shape symbol p fs with hs | hs <;> rw [hs] at hp
      · exfalso
        rw [show ((let r := notFoundRes symbol;
            if r.found = true then some r else none) : Option Resolution) = none from rfl] at hp
        exact Option.noConfusion hp
      · right
        refine ⟨p, ?_⟩
        rw [show ((let r := foundRes symbol p;
            if r.found = true then some r else none) : Option Resolution) =
            some (foundRes symbol p) from rfl] at hp
        exact (Option.some.inj hp).symm
    · exact Or.inl rfl
  · exact Or.inl rfl

/-- Every result of resolve_import is either the canonical not-found
value or a found value at some path. -/
theorem resolve_import_shape (module symbol : String) (src_dir : Path) (level : Nat)
    (fs : FS) :
    resolve_import module symbol src_dir level fs = notFoundRes symbol ∨
    ∃ p, resolve_import module symbol src_dir level fs = foundRes symbol p := by
  unfold resolve_import
  dsimp only
  repeat' split
  all_goals
    first
    | exact Or.inl rfl
    | exact Or.inr ⟨_, rfl⟩
    | exact (find_symbol_in_file_shape symbol _ fs).imp id (fun h => ⟨_, h⟩)
    | exact find_symbol_in_directory_shape symbol _ fs

/-! ## Ascension helper lemmas -/

/-- A non-root path is never a lexical prefix of its own parent. -/
theorem not_isPrefixOf_dropLast (p : Path) (h : p ≠ []) :
    p.isPrefixOf p.dropLast = false := by
  by_contra hcontra
  have hpre : p <+: p.dropLast := by
    rw [← List.isPrefixOf_iff_prefix]
    exact eq_true_of_ne_false hcontra
  have hlen := hpre.length_le
  have hlt : p.dropLast.length < p.length := by
    rw [List.length_dropLast]
    exact Nat.sub_lt (List.length_pos.mpr h) Nat.one_pos
  omega

/-- With a source root that is not the filesystem root, the very first
ascension step fails the containment check. -/
theorem ascend_succ_eq_none (src : Path) (h : src ≠ []) (n : Nat) :
    ascend src src (n + 1) = none := by
  unfold ascend
  have hfalse : isRelativeTo (parentDir src) src = false := by
    unfold isRelativeTo parentDir
    exact not_isPrefixOf_dropLast src h
  simp [hfalse]

/-! ## Content-independence helper lemmas -/

/-- Auxiliary: replacing file contents entrywise does not change
whether the association-list lookup succeeds. -/
theorem find?_mapData_isSome (l : List (Path × Entry)) (g : FileData → FileData) (q : Path) :
    (List.find? (fun e => decide (e.1 = q)) (l.map (fun e =>
      (e.1, match e.2 with
            | Entry.file d => Entry.file (g d)
            | Entry.dir => Entry.dir)))).isSome =
    (List.find? (fun e => decide (e.1 = q)) l).isSome := by
  induction l with
  | nil => rfl
  | cons e es ih =>
      simp only [List.map_cons, List.find?_cons]
      cases he : decide (e.1 = q) with
      | false => exact ih
      | true => rfl

/-- Replacing file contents does not change which paths exist. -/
theorem pathExists_mapData (fs : FS) (g : FileData → FileData) (p : Path) :
    (fs.mapData g).pathExists p = fs.pathExists p := by
  obtain ⟨l⟩ := fs
  unfold FS.pathExists FS.lookup FS.mapData
  dsimp only
  have hm : ∀ (o : Option (Path × Entry)), (o.map (fun e => e.2)).isSome = o.isSome := by
    intro o
    cases o <;> rfl
  rw [hm, hm]
  exact find?_mapData_isSome l g (resolvePath p)

/-! ## Branch characterizations of resolve_import -/

/-- When the symbol equals the non-empty module of an absolute import,
resolve_import runs the plain-import branch: bare existence of the
module file or package init file under the root, with no call into the
content search. -/
theorem resolve_import_plain_eq (module : String) (src_dir : Path) (fs : FS)
    (h : module ≠ "") :
    resolve_import module module src_dir 0 fs =
      (match withSuffixPy (joinPath src_dir (pySplit '.' module)) with
       | none => notFoundRes module
       | some module_path =>
         if isRelativeTo (resolvePath module_path) (resolvePath src_dir) &&
             fs.pathExists module_path then
           foundRes module module_path
         else
           if isRelativeTo
                 (resolvePath (joinArg (joinPath src_dir (pySplit '.' module)) "__init__.py"))
                 (resolvePath src_dir) &&
               fs.pathExists (joinArg (joinPath src_dir (pySplit '.' module)) "__init__.py") then
             foundRes module (joinArg (joinPath src_dir (pySplit '.' module)) "__init__.py")
           else notFoundRes module) := by
  unfold resolve_import
  dsimp only
  rw [if_neg (Nat.lt_irrefl 0), if_neg h, if_pos (beq_self_eq_true module)]

/-- When the symbol differs from the non-empty module of an
absolute import, resolve_import searches the specific module file when it is
accepted, and otherwise the specific package init file when that is
accepted, and nothing else. -/
theorem resolve_import_absolute_eq (module symbol : String) (src_dir : Path) (fs : FS)
    (h : module ≠ "") (hs : (symbol == module) = false) :
    resolve_import module symbol src_dir 0 fs =
      (let package_attempt : Resolution :=
        if isRelativeTo
              (resolvePath (joinArg (joinPath src_dir (pySplit '.' module)) "__init__.py"))
              (resolvePath src_dir) &&
            fs.pathExists (joinArg (joinPath src_dir (pySplit '.' module)) "__init__.py") then
          find_symbol_in_file symbol
            (joinArg (joinPath src_dir (pySplit '.' module)) "__init__.py") fs
        else notFoundRes symbol
       match withSuffixPy (joinPath src_dir (pySplit '.' module)) with
       | none => package_attempt
       | some module_path =>
         if isRelativeTo (resolvePath module_path) (resolvePath src_dir) &&
             fs.pathExists module_path then
           find_symbol_in_file symbol module_path fs
         else package_attempt) := by
  unfold resolve_import
  dsimp only
  have hne : ¬ ((symbol == module) = true) := by simp [hs]
  rw [if_neg (Nat.lt_irrefl 0), if_neg h, if_neg hne]

/-! ## Extraction loop characterization -/

/-- The inner name loop of extract_symbols appends, in order, one
reference per non-wildcard name. -/
theorem names_foldl_eq (module : String) (aliases : List (String × String)) (level : Nat)
    (names : List String) (acc : List ImportedSymbol) :
    names.foldl (fun syms name =>
        if name == "*" then syms
        else syms ++ [{ symbol := name, module := module,
                        aliasName := aliasFor aliases name, level := level }]) acc =
      acc ++ (names.filter (fun n => n ≠ "*")).map
        (fun n => { symbol := n, module := module,
                    aliasName := aliasFor aliases n, level := level }) := by
  induction names generalizing acc with
  | nil => simp
  | cons n ns ih =>
      rw [List.foldl_cons, ih]
      by_cases hn : n = "*"
      · subst hn
        simp
      · simp [hn, List.filter_cons]

/-- The accumulating pass of extract_symbols is the concatenation of
the per-statement contracts. -/
theorem extract_symbols_eq_flatMap (imports : List Import) :
    extract_symbols imports = imports.flatMap extractOneSpec := by
  suffices h : ∀ acc, imports.foldl
      (fun symbols imp =>
        if imp.names.isEmpty then
          symbols ++ [{ symbol := imp.module, module := imp.module,
                        aliasName := plainImportAlias imp.aliases, level := imp.level }]
        else
          imp.names.foldl (fun syms name =>
            if name == "*" then syms
            else syms ++ [{ symbol := name, module := imp.module,
                            aliasName := aliasFor imp.aliases name, level := imp.level }])
            symbols)
      acc = acc ++ imports.flatMap extractOneSpec by
    exact (h []).trans (by simp)
  induction imports with
  | nil => simp
  | cons imp imps ih =>
      intro acc
      rw [List.foldl_cons, ih, List.flatMap_cons]
      by_cases hn : imp.names = []
      · rw [if_pos (List.isEmpty_iff.mpr hn)]
        have he : extractOneSpec imp =
            [{ symbol := imp.module, module := imp.module,
               aliasName := plainImportAlias imp.aliases, level := imp.level }] := by
          unfold extractOneSpec
          rw [if_pos hn]
        rw [he, List.append_assoc]
      · have hb : ¬ (imp.names.isEmpty = true) := fun hc => hn (List.isEmpty_iff.mp hc)
        rw [if_neg hb, names_foldl_eq]
        have he : extractOneSpec imp =
            (imp.names.filter (fun n => n ≠ "*")).map
              (fun n => { symbol := n, module := imp.module,
                          aliasName := aliasFor imp.aliases n, level := imp.level }) := by
          unfold extractOneSpec
          rw [if_neg hn]
        rw [he, List.append_assoc]

/-! ## Containment of accepted absolute-branch candidates -/

/-- A found per-file search result is located at the searched file. -/
theorem find_symbol_in_file_found_location (symbol : String) (p : Path) (fs : FS)
    (h : (find_symbol_in_file symbol p fs).found = true) :
    (find_symbol_in_file symbol p fs).location = some p := by
  rcases find_symbol_in_file_shape symbol p fs with hs | hs
  · rw [hs] at h
    exact absurd h (by simp [notFoundRes])
  · rw [hs]
    rfl

/-- Case enumeration for an absolute import (level zero): the result
is the canonical not-found value, or a bare-existence success at a
candidate whose resolution stays inside the root, or the per-file
search of a candidate whose resolution stays inside the root - every
acceptance of the absolute branch passes the containment check first. -/
theorem resolve_import_level0_cases (module symbol : String) (src_dir : Path) (fs : FS) :
    resolve_import module symbol src_dir 0 fs = notFoundRes symbol ∨
    (∃ q, resolve_import module symbol src_dir 0 fs = foundRes symbol q ∧
        isRelativeTo (resolvePath q) (resolvePath src_dir) = true) ∨
    (∃ q, resolve_import module symbol src_dir 0 fs = find_symbol_in_file symbol q fs ∧
        isRelativeTo (resolvePath q) (resolvePath src_dir) = true) := by
  by_cases hm : module = ""
  · left
    unfold resolve_import
    dsimp only
    rw [if_neg (Nat.lt_irrefl 0), if_pos hm]
  · by_cases hsym : (symbol == module) = true
    · have hsymm : symbol = module := by simpa using hsym
      rw [hsymm]
      rw [resolve_import_plain_eq module src_dir fs hm]
      cases hsfx : withSuffixPy (joinPath src_dir (pySplit '.' module)) with
      | none => left; rfl
      | some mp =>
          dsimp only
          by_cases h1 : (isRelativeTo (resolvePath mp) (resolvePath src_dir) &&
              fs.pathExists mp) = true
          · right; left
            refine ⟨mp, ?_, (by rw [Bool.and_eq_true] at h1; exact h1.1)⟩
            rw [if_pos h1]
          · rw [if_neg h1]
            by_cases h2 : (isRelativeTo
                (resolvePath (joinArg (joinPath src_dir (pySplit '.' module)) "__init__.py"))
                (resolvePath src_dir) &&
              fs.pathExists (joinArg (joinPath src_dir (pySplit '.' module)) "__init__.py")) = true
            · right; left
              refine ⟨_, ?_, (by rw [Bool.and_eq_true] at h2; exact h2.1)⟩
              rw [if_pos h2]
            · left
              rw [if_neg h2]
    · have hsymf : (symbol == module) = false := by simpa using hsym
      rw [resolve_import_absolute_eq module symbol src_dir fs hm hsymf]
      dsimp only
      cases hsfx : withSuffixPy (joinPath src_dir (pySplit '.' module)) with
      | none =>
          dsimp only
          by_cases h2 : (isRelativeTo
              (resolvePath (joinArg (joinPath src_dir (pySplit '.' module)) "__init__.py"))
              (resolvePath src_dir) &&
            fs.pathExists (joinArg (joinPath src_dir (pySplit '.' module)) "__init__.py")) = true
          · right; right
            refine ⟨_, ?_, (by rw [Bool.and_eq_true] at h2; exact h2.1)⟩
            rw [if_pos h2]
          · left
            rw [if_neg h2]
      | some mp =>
          dsimp only
          by_cases h1 : (isRelativeTo (resolvePath mp) (resolvePath src_dir) &&
              fs.pathExists mp) = true
          · right; right
            refine ⟨mp, ?_, (by rw [Bool.and_eq_true] at h1; exact h1.1)⟩
            rw [if_pos h1]
          · rw [if_neg h1]
            by_cases h2 : (isRelativeTo
                (resolvePath (joinArg (joinPath src_dir (pySplit '.' module)) "__init__.py"))
                (resolvePath src_dir) &&
              fs.pathExists (joinArg (joinPath src_dir (pySplit '.' module)) "__init__.py")) = true
            · right; right
              refine ⟨_, ?_, (by rw [Bool.and_eq_true] at h2; exact h2.1)⟩
              rw [if_pos h2]
            · left
              rw [if_neg h2]

/-- Every found result of an absolute import carries a location whose
resolution stays inside the resolved root. -/
theorem resolve_import_level0_found_contained (module symbol : String) (src_dir : Path)
    (fs : FS) (hfound : (resolve_import module symbol src_dir 0 fs).found = true) :
    ∃ q, (resolve_import module symbol src_dir 0 fs).location = some q ∧
      isRelativeTo (resolvePath q) (resolvePath src_dir) = true := by
  rcases resolve_import_level0_cases module symbol src_dir fs with h | ⟨q, h, hc⟩ | ⟨q, h, hc⟩
  · rw [h] at hfound
    exact absurd hfound (by simp [notFoundRes])
  · exact ⟨q, by rw [h]; rfl, hc⟩
  · refine ⟨q, ?_, hc⟩
    rw [h] at hfound ⊢
    exact find_symbol_in_file_found_location symbol q fs hfound

/-! ## Claim theorems -/

/-- C1: the specification claims that resolve_import never searches or
reports a location outside the sandbox root, and in particular that
every candidate path built in the relative-import branch is re-verified
to lie inside the root after resolution before being accepted.  The
relative-import branch of the code performs no containment check at
all: with root /sandbox, relative depth 1 and the crafted module
string dot-dot-slash-secret, the joined candidate resolves to
/secret.py, is accepted on a bare existence check, is searched, and is
reported found with a location outside the root.  This theorem
evaluates the code at that failing input, documenting the code bug. -/
theorem c1_relative_branch_escapes_root :
    (resolve_import "../secret" "token" ["sandbox"] 1 escapeFS).found = true ∧
    (resolve_import "../secret" "token" ["sandbox"] 1 escapeFS).location =
      some ["secret.py"] ∧
    isRelativeTo (resolvePath ["secret.py"]) (resolvePath ["sandbox"]) = false := by
  decide

/-- C2 counterexample: the claim maps every boundary violation to a
not-found Resolution, but the relative-import branch performs no
containment check: at relative depth 1 the crafted module string
dot-dot-slash-secret builds a candidate resolving to /secret.py,
outside the root /sandbox - a boundary violation by the
specification's own error taxonomy - and resolve_import reports it
found instead of returning the claimed not-found Resolution. -/
theorem c2_boundary_violation_reported_found :
    isRelativeTo (resolvePath ["secret.py"]) (resolvePath ["sandbox"]) = false ∧
    resolve_import "../secret" "token" ["sandbox"] 1 escapeFS ≠ notFoundRes "token" ∧
    (resolve_import "../secret" "token" ["sandbox"] 1 escapeFS).found = true := by
  decide

/-- C2 as amended: on every input and filesystem state, any read,
decode or parse failure yields the canonical not-found Resolution, a
missing or non-directory search root yields it, every unsuccessful
result of either function is exactly that canonical value, and the
boundary violations the code checks for are mapped to it as well: any
ascension of relative depth at least two from a root below the
filesystem root is not-found, and an absolute import (depth zero) that
reports found always reports a location resolving inside the root.  No
exception reaches the caller - the embedded functions are total, with
every fallible primitive the source catches modelled as an explicit
error value.  The one uncovered case is the relative-import branch
with a non-empty module, which performs no containment check (the C1
code bug). -/
theorem c2_errors_and_checked_boundaries_not_found (module symbol : String)
    (src_dir p d : Path) (level : Nat) (fs : FS) :
    ((∀ body, fs.lookup p ≠ some (Entry.file (FileData.module body))) →
        find_symbol_in_file symbol p fs = notFoundRes symbol) ∧
    (fs.lookup d ≠ some Entry.dir →
        find_symbol_in_directory symbol d fs = notFoundRes symbol) ∧
    ((find_symbol_in_file symbol p fs).found = false →
        find_symbol_in_file symbol p fs = notFoundRes symbol) ∧
    ((resolve_import module symbol src_dir level fs).found = false →
        resolve_import module symbol src_dir level fs = notFoundRes symbol) ∧
    (2 ≤ level → resolvePath src_dir ≠ [] →
        resolve_import module symbol src_dir level fs = notFoundRes symbol) ∧
    ((resolve_import module symbol src_dir 0 fs).found = true →
        ∃ q, (resolve_import module symbol src_dir 0 fs).location = some q ∧
          isRelativeTo (resolvePath q) (resolvePath src_dir) = true) := by
  refine ⟨?_, ?_, ?_, ?_, ?_, ?_⟩
  · intro herr
    unfold find_symbol_in_file
    split
    · rename_i body heq
      exact absurd heq (herr body)
    · rfl
  · intro herr
    unfold find_symbol_in_directory
    split
    · rename_i heq
      exact absurd heq herr
    · rfl
  · intro hf
    rcases find_symbol_in_file_shape symbol p fs with hs | hs
    · exact hs
    · rw [hs] at hf
      exact absurd hf (by simp [foundRes])
  · intro hf
    rcases resolve_import_shape module symbol src_dir level fs with hs | ⟨q, hs⟩
    · exact hs
    · rw [hs] at hf
      exact absurd hf (by simp [foundRes])
  · intro hlevel hroot
    obtain ⟨k, rfl⟩ : ∃ k, level = k + 2 := ⟨level - 2, by omega⟩
    unfold resolve_import
    dsimp only
    rw [if_pos (by omega : k + 2 > 0)]
    rw [show k + 2 - 1 = k + 1 from by omega]
    rw [ascend_succ_eq_none (resolvePath src_dir) hroot k]
  · exact resolve_import_level0_found_contained module symbol src_dir fs

/-- Witness for C2 as amended, at concrete inputs: an undecodable
file, a missing directory and an unresolvable module map to the
canonical not-found value, a depth-3 relative import from a non-root
sandbox maps to it, and a found absolute import reports a location
inside the root. -/
theorem c2_errors_and_checked_boundaries_not_found_witness :
    find_symbol_in_file "VAR" ["root", "bad.py"] errFS = notFoundRes "VAR" ∧
    find_symbol_in_directory "VAR" ["root", "missing"] errFS = notFoundRes "VAR" ∧
    resolve_import "nomod" "VAR" ["root"] 0 errFS = notFoundRes "VAR" ∧
    resolve_import "utils" "x" ["sandbox", "pkg"] 3 errFS = notFoundRes "x" ∧
    (∃ q, (resolve_import "pkg" "pkg" ["root"] 0 pkgFS).location = some q ∧
        isRelativeTo (resolvePath q) (resolvePath ["root"]) = true) := by
  refine ⟨?_, ?_, ?_, ?_, ?_⟩
  · exact (c2_errors_and_checked_boundaries_not_found "nomod" "VAR" ["root"]
      ["root", "bad.py"] ["root", "missing"] 0 errFS).1
      (by
        intro body h
        rw [show errFS.lookup ["root", "bad.py"] =
            some (Entry.file FileData.decodeError) from rfl] at h
        simp at h)
  · exact (c2_errors_and_checked_boundaries_not_found "nomod" "VAR" ["root"]
      ["root", "bad.py"] ["root", "missing"] 0 errFS).2.1
      (by
        intro h
        rw [show errFS.lookup ["root", "missing"] = none from rfl] at h
        exact Option.noConfusion h)
  · exact (c2_errors_and_checked_boundaries_not_found "nomod" "VAR" ["root"]
      ["root", "bad.py"] ["root", "missing"] 0 errFS).2.2.2.1 (by decide)
  · exact (c2_errors_and_checked_boundaries_not_found "utils" "x" ["sandbox", "pkg"]
      ["root", "bad.py"] ["root", "missing"] 3 errFS).2.2.2.2.1 (by decide) (by decide)
  · exact (c2_errors_and_checked_boundaries_not_found "pkg" "pkg" ["root"]
      ["root", "bad.py"] ["root", "missing"] 0 pkgFS).2.2.2.2.2 (by decide)

/-- C3 counterexample: the claim permits an ascension that stays at
most one level above the sandboxed root.  Here utils.py one level
above the root /sandbox/pkg defines the queried symbol, the parent of
the resolved root is exactly that one-level-above directory, and yet
resolve_import at relative depth 2 returns not-found: the code rejects
every ascension, because a parent directory is never lexically inside
the root the safety check compares against. -/
theorem c3_one_level_ascension_rejected :
    (find_symbol_in_file "target_func" ["sandbox", "utils.py"] ascendFS).found = true ∧
    parentDir (resolvePath ["sandbox", "pkg"]) = resolvePath ["sandbox"] ∧
    resolve_import "utils" "target_func" ["sandbox", "pkg"] 2 ascendFS =
      notFoundRes "target_func" := by
  decide

/-- C3 as amended: for every relative depth of at least two and every
root that does not resolve to the filesystem root, resolve_import
returns the canonical not-found value - the ascension loop rejects its
very first step, so no ascension above the root is ever permitted and
only depth one (no ascension) proceeds. -/
theorem c3_level_ge_two_not_found (module symbol : String) (src_dir : Path) (level : Nat)
    (fs : FS) (hlevel : 2 ≤ level) (hroot : resolvePath src_dir ≠ []) :
    resolve_import module symbol src_dir level fs = notFoundRes symbol := by
  obtain ⟨k, rfl⟩ : ∃ k, level = k + 2 := ⟨level - 2, by omega⟩
  unfold resolve_import
  dsimp only
  rw [if_pos (by omega : k + 2 > 0)]
  rw [show k + 2 - 1 = k + 1 from by omega]
  rw [ascend_succ_eq_none (resolvePath src_dir) hroot k]

/-- Witness for C3: a depth-2 import from a non-root sandbox is
not-found. -/
theorem c3_level_ge_two_not_found_witness :
    resolve_import "utils" "x" ["sandbox", "pkg"] 2 ascendFS = notFoundRes "x" :=
  c3_level_ge_two_not_found "utils" "x" ["sandbox", "pkg"] 2 ascendFS
    (by decide) (by decide)

/-- C4: for an absolute import naming a specific non-empty module and
a symbol distinct from it, if neither the module file candidate nor
the package init candidate contains the symbol, resolution reports
not-found - the quantified filesystem may contain any number of other
units defining the same symbol, and no fallback consults them. -/
theorem c4_no_global_fallback (module symbol : String) (src_dir : Path) (fs : FS)
    (hm : module ≠ "") (hs : symbol ≠ module)
    (hfile : ∀ mp, withSuffixPy (joinPath src_dir (pySplit '.' module)) = some mp →
        (find_symbol_in_file symbol mp fs).found = false)
    (hpkg : (find_symbol_in_file symbol
        (joinArg (joinPath src_dir (pySplit '.' module)) "__init__.py") fs).found = false) :
    (resolve_import module symbol src_dir 0 fs).found = false := by
  rw [resolve_import_absolute_eq module symbol src_dir fs hm (by simp [hs])]
  rcases hsfx : withSuffixPy (joinPath src_dir (pySplit '.' module)) with _ | mp <;>
    dsimp only
  · split
    · exact hpkg
    · rfl
  · split
    · exact hfile mp hsfx
    · split
      · exact hpkg
      · rfl

/-- Witness for C4: the unit module_b.py lacks the symbol target while
the sibling module_a.py defines it; the import bound to module_b is
not-found even though target exists elsewhere in the tree. -/
theorem c4_no_global_fallback_witness :
    (resolve_import "module_b" "target" ["root"] 0 twoModuleFS).found = false ∧
    (find_symbol_in_file "target" ["root", "module_a.py"] twoModuleFS).found = true := by
  constructor
  · exact c4_no_global_fallback "module_b" "target" ["root"] twoModuleFS
      (by decide) (by decide)
      (fun mp h => by
        rw [show withSuffixPy (joinPath ["root"] (pySplit '.' "module_b")) =
            some ["root", "module_b.py"] from rfl] at h
        rw [← Option.some.inj h]
        decide)
      (by decide)
  · decide

/-- C5 counterexample: the claim includes every loop body in the
bounded set of control constructs, but the search never descends into
a while loop - here the only binding of x sits one level inside a
top-level while-loop body and the search reports not-found. -/
theorem c5_while_body_not_searched :
    whileFS.lookup ["root", "w.py"] =
      some (Entry.file (FileData.module
        [Stmt.whileStmt [Stmt.assign [Target.name "x"]] []])) ∧
    (find_symbol_in_file "x" ["root", "w.py"] whileFS).found = false := by
  exact ⟨rfl, by decide⟩

/-- C5 as amended: a name bound exactly one level inside one of the
handled constructs - both branches of a conditional, any block of a
try statement including its handlers, a with or async-with body, a for
or async-for body or else - is reported found; while-loop bodies are
not part of the handled set. -/
theorem c5_one_level_nested_found (symbol : String) (p : Path) (fs : FS)
    (body : List Stmt)
    (h : fs.lookup p = some (Entry.file (FileData.module body)))
    (hb : symbol ∈ oneLevelBoundNames body) :
    (find_symbol_in_file symbol p fs).found = true := by
  rw [find_symbol_in_file_found_iff symbol p fs body h]
  exact List.mem_append.mpr (Or.inr hb)

/-- Witness for C5: a re-export bound inside a top-level try block is
found. -/
theorem c5_one_level_nested_found_witness :
    (find_symbol_in_file "FastClass" ["root", "t.py"] tryFS).found = true :=
  c5_one_level_nested_found "FastClass" ["root", "t.py"] tryFS
    [Stmt.tryStmt [Stmt.importFrom (some "fast_lib") [⟨"FastClass", none⟩] 0]
      [[Stmt.importFrom (some "slow_lib") [⟨"SlowClass", some "FastClass"⟩] 0]] [] []]
    rfl (by decide)

/-- C6: a name that is outside the module-visible table - the
top-level name table plus the one bounded shadow level, which by
construction draws nothing from function or class bodies and nothing
from depth two or more - is never reported found; in particular a name
bound only inside a function or class body is never reported as a
module-level symbol. -/
theorem c6_deep_bindings_not_found (symbol : String) (p : Path) (fs : FS)
    (body : List Stmt)
    (h : fs.lookup p = some (Entry.file (FileData.module body)))
    (hb : symbol ∉ moduleVisibleNames body) :
    (find_symbol_in_file symbol p fs).found = false := by
  cases hfound : (find_symbol_in_file symbol p fs).found
  · rfl
  · exact absurd ((find_symbol_in_file_found_iff symbol p fs body h).mp hfound) hb

/-- Witness for C6, the scope scenario of the specification: LOCAL,
bound only inside a function body, is not found, while the top-level
VISIBLE is found. -/
theorem c6_deep_bindings_not_found_witness :
    (find_symbol_in_file "LOCAL" ["root", "scope.py"] scopeFS).found = false ∧
    (find_symbol_in_file "VISIBLE" ["root", "scope.py"] scopeFS).found = true := by
  constructor
  · exact c6_deep_bindings_not_found "LOCAL" ["root", "scope.py"] scopeFS
      [Stmt.assign [Target.name "VISIBLE"],
       Stmt.functionDef "f" [Stmt.assign [Target.name "LOCAL"]]]
      rfl (by decide)
  · decide

/-- C7: a statement with an empty name sequence yields exactly one
reference whose checked name is the full dotted module path with the
alias attached; for such a reference the resolver runs the
plain-import branch, whose result is unchanged under any replacement
of file contents (no content search) and whose success is exactly the
bare existence condition of the module file or package under the
root. -/
theorem c7_bare_import_full_path (imp : Import) (module : String) (src_dir : Path)
    (fs : FS) (g : FileData → FileData) :
    (imp.names = [] →
        extract_symbols [imp] =
          [{ symbol := imp.module, module := imp.module,
             aliasName := plainImportAlias imp.aliases, level := imp.level }]) ∧
    (module ≠ "" →
        resolve_import module module src_dir 0 (fs.mapData g) =
          resolve_import module module src_dir 0 fs) ∧
    (module ≠ "" →
        ((resolve_import module module src_dir 0 fs).found = true ↔
          moduleOrPackageExists module src_dir fs = true)) := by
  refine ⟨?_, ?_, ?_⟩
  · intro hn
    rw [extract_symbols_eq_flatMap, List.flatMap_cons, List.flatMap_nil, List.append_nil]
    unfold extractOneSpec
    rw [if_pos hn]
  · intro hm
    rw [resolve_import_plain_eq module src_dir (FS.mapData fs g) hm,
        resolve_import_plain_eq module src_dir fs hm]
    simp only [pathExists_mapData]
  · intro hm
    rw [resolve_import_plain_eq module src_dir fs hm]
    unfold moduleOrPackageExists
    rcases hsfx : withSuffixPy (joinPath src_dir (pySplit '.' module)) with _ | mp <;>
      dsimp only
    · simp [notFoundRes]
    · cases h1 : (isRelativeTo (resolvePath mp) (resolvePath src_dir) &&
          fs.pathExists mp) <;>
        cases h2 : (isRelativeTo
            (resolvePath (joinArg (joinPath src_dir (pySplit '.' module)) "__init__.py"))
            (resolvePath src_dir) &&
          fs.pathExists (joinArg (joinPath src_dir (pySplit '.' module)) "__init__.py")) <;>
        simp [h1, h2, foundRes, notFoundRes]

/-- Witness for C7: the reference extracted for a bare import of
os.path checks the full dotted path with its alias attached, and a
plain import of the package pkg succeeds exactly when the package
exists under the root. -/
theorem c7_bare_import_full_path_witness :
    extract_symbols [⟨"os.path", [], [("p", "os.path")], 0⟩] =
      [{ symbol := "os.path", module := "os.path", aliasName := some "p", level := 0 }] ∧
    ((resolve_import "pkg" "pkg" ["root"] 0 pkgFS).found = true ↔
      moduleOrPackageExists "pkg" ["root"] pkgFS = true) := by
  constructor
  · exact (c7_bare_import_full_path ⟨"os.path", [], [("p", "os.path")], 0⟩ "pkg"
      ["root"] pkgFS id).1 rfl
  · exact (c7_bare_import_full_path ⟨"os.path", [], [("p", "os.path")], 0⟩ "pkg"
      ["root"] pkgFS id).2.2 (by decide)

/-- C8: extraction is exactly the concatenation of the per-statement
contracts: every wildcard name is dropped while sibling names of the
same statement are kept, every remaining name yields exactly one
reference whose checked name is the original imported name with the
alias only attached; the second conjunct records the mixed-list
example, where the names a, star, b yield exactly the references for a
and b. -/
theorem c8_wildcards_dropped_siblings_kept (imports : List Import) :
    extract_symbols imports = imports.flatMap extractOneSpec ∧
    extract_symbols [⟨"mod", ["a", "*", "b"], [], 0⟩] =
      [{ symbol := "a", module := "mod", aliasName := none, level := 0 },
       { symbol := "b", module := "mod", aliasName := none, level := 0 }] :=
  ⟨extract_symbols_eq_flatMap imports, by decide⟩

/-- C9: the package filter keeps every reference whose relative depth
is positive and every reference with an empty module, whatever the
configured prefixes; and the keep condition holds exactly for those
references or for an absolute non-empty-module reference matching a
configured prefix - so only the latter are subject to prefix
matching. -/
theorem c9_filter_passes_relative_and_bare (packages : List String)
    (symbols : List ImportedSymbol) (s : ImportedSymbol) :
    (s ∈ symbols → (0 < s.level ∨ s.module = "") →
        s ∈ filterSymbols packages symbols) ∧
    (keepSymbol packages s = true ↔
      (0 < s.level ∨ s.module = "" ∨
        ∃ pre ∈ packages, s.module = pre ∨ strStartsWith (pre ++ ".") s.module = true)) := by
  constructor
  · intro hmem hpass
    unfold filterSymbols
    split
    · exact hmem
    · refine List.mem_filter.mpr ⟨hmem, ?_⟩
      unfold keepSymbol
      rcases hpass with h | h
      · simp [h]
      · simp [h]
  · unfold keepSymbol
    simp [List.any_eq_true, or_assoc]

/-- Witness for C9: a relative reference passes the filter although
its module matches no configured prefix. -/
theorem c9_filter_passes_relative_and_bare_witness :
    (⟨"x", "other", none, 2⟩ : ImportedSymbol) ∈
      filterSymbols ["pkg"] [⟨"x", "other", none, 2⟩, ⟨"y", "numpy", none, 0⟩] :=
  (c9_filter_passes_relative_and_bare ["pkg"]
    [⟨"x", "other", none, 2⟩, ⟨"y", "numpy", none, 0⟩] ⟨"x", "other", none, 2⟩).1
    (by decide) (by decide)

/-- C10: a from-import whose symbol is textually equal to its
non-empty module path takes the plain-import branch: whenever the
module file candidate is accepted - its resolution stays inside the
root and it exists - the result is found at that file, with no
condition at all on what the file contains. -/
theorem c10_from_import_symbol_eq_module (module : String) (src_dir mp : Path) (fs : FS)
    (hm : module ≠ "")
    (hsfx : withSuffixPy (joinPath src_dir (pySplit '.' module)) = some mp)
    (hrel : isRelativeTo (resolvePath mp) (resolvePath src_dir) = true)
    (hex : fs.pathExists mp = true) :
    resolve_import module module src_dir 0 fs = foundRes module mp := by
  rw [resolve_import_plain_eq module src_dir fs hm, hsfx]
  dsimp only
  rw [if_pos (by rw [hrel, hex]; rfl)]

/-- Witness for C10: from foo import foo, where foo.py exists but
defines nothing, is reported found at foo.py even though the content
search for foo inside that file would fail. -/
theorem c10_from_import_symbol_eq_module_witness :
    resolve_import "foo" "foo" ["root"] 0 fooFS = foundRes "foo" ["root", "foo.py"] ∧
    (find_symbol_in_file "foo" ["root", "foo.py"] fooFS).found = false := by
  constructor
  · exact c10_from_import_symbol_eq_module "foo" ["root"] ["root", "foo.py"] fooFS
      (by decide) (by decide) (by decide) (by decide)
  · decide

end DocDriftGuard
